import Mathlib

/-!
Shallow embedding of `src/purge.py`, a command-line tool that lists the
tags of a quay.io repository and reports (and optionally deletes) the tags
whose age in seconds strictly exceeds a configured threshold.

Modelling conventions:
* Python values flowing through the generic `deserialize` helper are
  modelled by `PyValue` (Python `None`, `str`, `int`, `bool`).
* A JSON object / Python dict is an association list `List (String × PyValue)`;
  `dict.get` is `pyGet`, returning Python `None` for a missing key.
* `datetime` values are `DateTime` records (civil fields plus microsecond and
  a UTC offset in seconds); subtraction goes through `DateTime.toEpochUsec`,
  so a `timedelta` is an `Int` number of microseconds.
* The observable behaviour of `main` is a trace of events (HTTP GET, HTTP
  DELETE, text written to stdout) plus a result that is either normal
  termination or an uncaught abort, computed by `runMain` from a `World`
  describing the command line, the environment and the network responses.
  The reference instant `now` is passed explicitly; the source reads the
  wall clock at each `tag.age` access, and all claims are stated at a fixed
  reference time.
-/

namespace Purge

/-- Python value as it appears in the records handled by `deserialize`:
`None`, a string, an integer or a boolean. -/
inductive PyValue where
  | none
  | str (s : String)
  | int (n : Int)
  | bool (b : Bool)
deriving DecidableEq

/-- Python `dict.get(key)` on an association list: the stored value when the
key is present, Python `None` when it is absent (the default of `dict.get`). -/
def pyGet (d : List (String × PyValue)) (k : String) : PyValue :=
  match d.lookup k with
  | some v => v
  | Option.none => PyValue.none

/-- Line 51 of `purge.py`: `{field.name: value.get(field.name) for field in
dataclasses.fields(value_type)}` — build the keyword-argument record read by
the dataclass constructor, one entry per declared field, each taken from the
input record with `dict.get` (so a missing field becomes Python `None`). -/
def deserialize (value : List (String × PyValue)) (fields : List String) :
    List (String × PyValue) :=
  fields.map (fun f => (f, pyGet value f))

/-- Python `str()` as used by f-string interpolation on the modelled values. -/
def pyStr : PyValue → String
  | PyValue.none => "None"
  | PyValue.str s => s
  | PyValue.int n => toString n
  | PyValue.bool b => if b then "True" else "False"

/-- The `Tag` dataclass of `purge.py` (lines 63-72).  Python dataclass fields
are dynamically typed — `deserialize` can store `None` in any of them — so
every field holds a `PyValue`. -/
structure Tag where
  name : PyValue
  reversion : PyValue
  start_ts : PyValue
  manifest_digest : PyValue
  is_manifest_list : PyValue
  size : PyValue
  last_modified : PyValue
deriving DecidableEq

/-- The declared field names of the `Tag` dataclass, in declaration order,
as enumerated by `dataclasses.fields(Tag)`. -/
def Tag.fields : List String :=
  ["name", "reversion", "start_ts", "manifest_digest", "is_manifest_list",
   "size", "last_modified"]

/-- Line 52 of `purge.py` for `Tag`: `Tag(**kvp)` — read each declared field
out of the keyword-argument record built by `deserialize`. -/
def Tag.ofKvp (kvp : List (String × PyValue)) : Tag :=
  ⟨pyGet kvp "name", pyGet kvp "reversion", pyGet kvp "start_ts",
   pyGet kvp "manifest_digest", pyGet kvp "is_manifest_list",
   pyGet kvp "size", pyGet kvp "last_modified"⟩

/-- `deserialize(value, Tag)` as called on line 37 of `purge.py`. -/
def deserializeTag (d : List (String × PyValue)) : Tag :=
  Tag.ofKvp (deserialize d Tag.fields)

/-- Modelled from the spec: the source contains no serializer, but spec §8
(round-trip property) speaks of "a tag record serialized to JSON with the
seven named fields"; this writes exactly the seven declared fields of a
`Tag` to a key-value record, in declaration order. -/
def serializeTag (t : Tag) : List (String × PyValue) :=
  [("name", t.name), ("reversion", t.reversion), ("start_ts", t.start_ts),
   ("manifest_digest", t.manifest_digest),
   ("is_manifest_list", t.is_manifest_list), ("size", t.size),
   ("last_modified", t.last_modified)]

/-- The `Config` dataclass of `purge.py` (lines 55-60).  It is filled from
the argparse namespace via `deserialize(args.__dict__, Config)`; argparse
guarantees all three fields are present with these types (`repository : str`,
`age : int` from `type=int`, `purge : bool` from `store_true`), so the
fields are modelled with their actual types. -/
structure Config where
  repository : String
  age : Int
  purge : Bool
deriving DecidableEq

/-- The declared field names of the `Config` dataclass, in declaration
order. -/
def Config.fields : List String := ["repository", "age", "purge"]

/-- The argparse namespace dictionary `args.__dict__` for a parsed command
line: exactly the three declared arguments with their typed values. -/
def argsDict (c : Config) : List (String × PyValue) :=
  [("repository", PyValue.str c.repository), ("age", PyValue.int c.age),
   ("purge", PyValue.bool c.purge)]

/-- ASCII decimal digit test (`\d` of the strptime regular expressions). -/
def isDigitB (c : Char) : Bool :=
  decide (48 ≤ c.toNat) && decide (c.toNat ≤ 57)

/-- Split a leading run of decimal digits off a character list. -/
def readDigits : List Char → List Char × List Char
  | [] => ([], [])
  | c :: cs =>
    if isDigitB c then
      let p := readDigits cs
      (c :: p.1, p.2)
    else ([], c :: cs)

/-- Numeric value of a digit string, most significant digit first. -/
def digitsToNat (ds : List Char) : Nat :=
  ds.foldl (fun a c => a * 10 + (c.toNat - 48)) 0

/-- Lower-cased code point of an ASCII character; CPython strptime matches
the `%a` and `%b` names case-insensitively. -/
def charLowerNat (c : Char) : Nat :=
  let n := c.toNat
  if 65 ≤ n && n ≤ 90 then n + 32 else n

/-- Case-insensitive match of a character list against an ASCII name. -/
def matchNameCI (cs : List Char) (name : String) : Bool :=
  cs.map charLowerNat == (name.toList).map charLowerNat

/-- Abbreviated weekday names accepted by strptime `%a` (C locale). -/
def weekdayNames : List String :=
  ["Mon", "Tue", "Wed", "Thu", "Fri", "Sat", "Sun"]

/-- Abbreviated month names accepted by strptime `%b` (C locale), in month
order. -/
def monthNames : List String :=
  ["Jan", "Feb", "Mar", "Apr", "May", "Jun", "Jul", "Aug", "Sep", "Oct",
   "Nov", "Dec"]

/-- Month number (1-12) of an abbreviated month name, case-insensitively. -/
def monthNumber (cs : List Char) : Option Int :=
  (monthNames.findIdx? (fun n => matchNameCI cs n)).map (fun i => (i : Int) + 1)

/-- Leap-year test of the proleptic Gregorian calendar used by
`datetime.date`. -/
def isLeapYear (y : Int) : Bool :=
  y % 4 == 0 && (y % 100 != 0 || y % 400 == 0)

/-- Length of a month in the proleptic Gregorian calendar, as enforced by
the `datetime.datetime` constructor. -/
def daysInMonth (y m : Int) : Int :=
  if m == 2 then (if isLeapYear y then 29 else 28)
  else if m == 4 || m == 6 || m == 9 || m == 11 then 30
  else 31

/-- Parsed fields of a `%a, %d %b %Y %H:%M:%S %z` timestamp.  The format
has no `%f` directive, so there is no sub-second field to parse. -/
structure TimeParts where
  year : Int
  month : Int
  day : Int
  hour : Int
  minute : Int
  second : Int
  tzOffsetSeconds : Int
deriving DecidableEq

/-- The `%z` directive: `Z` (UTC) or a sign followed by `HH`, an optional
colon, `MM`, and optionally another optional colon and `SS`; the resulting
offset must lie strictly between -24 h and +24 h (the `datetime.timezone`
constructor rejects anything else).  CPython additionally accepts fractional
offset seconds (`.ffffff`), which no real registry timestamp carries; that
extension is not modelled, so modelled offsets are whole seconds. -/
def parseTz : List Char → Option Int
  | ['Z'] => some 0
  | c :: rest =>
    if c = '+' || c = '-' then
      let sign : Int := if c = '-' then -1 else 1
      match rest with
      | h1 :: h2 :: rest2 =>
        if isDigitB h1 && isDigitB h2 then
          let hh := digitsToNat [h1, h2]
          let rest3 := match rest2 with
            | ':' :: r => r
            | r => r
          match rest3 with
          | m1 :: m2 :: rest4 =>
            if isDigitB m1 && isDigitB m2 then
              let mm := digitsToNat [m1, m2]
              let base : Int := (hh : Int) * 3600 + (mm : Int) * 60
              match rest4 with
              | [] => if base < 86400 then some (sign * base) else Option.none
              | _ =>
                let rest5 := match rest4 with
                  | ':' :: r => r
                  | r => r
                match rest5 with
                | [s1, s2] =>
                  if isDigitB s1 && isDigitB s2 then
                    let ss := digitsToNat [s1, s2]
                    let tot : Int := base + (ss : Int)
                    if tot < 86400 then some (sign * tot) else Option.none
                  else Option.none
                | _ => Option.none
            else Option.none
          | _ => Option.none
        else Option.none
      | _ => Option.none
    else Option.none
  | _ => Option.none

/-- Digit-count guards of the strptime regular expressions: `%d`, `%H`,
`%M`, `%S` each match one or two digits. -/
def oneOrTwo (ds : List Char) : Bool :=
  ds.length == 1 || ds.length == 2

/-- Parse `"%a, %d %b %Y %H:%M:%S %z"` into its component fields, with the
range validation performed by the strptime regular expressions and by the
`datetime.datetime` constructor (calendar-valid day, hour 0-23, minute and
second 0-59, four-digit year at least 1).  Canonical single-space
separators are expected, as produced by the registry. -/
def parseParts (s : String) : Option TimeParts :=
  match s.toList with
  | w1 :: w2 :: w3 :: ',' :: ' ' :: rest =>
    if weekdayNames.any (fun n => matchNameCI [w1, w2, w3] n) then
      let pd := readDigits rest
      if oneOrTwo pd.1 then
        match pd.2 with
        | ' ' :: b1 :: b2 :: b3 :: ' ' :: rest2 =>
          match monthNumber [b1, b2, b3] with
          | some mon =>
            let py := readDigits rest2
            if py.1.length == 4 then
              match py.2 with
              | ' ' :: rest4 =>
                let ph := readDigits rest4
                if oneOrTwo ph.1 then
                  match ph.2 with
                  | ':' :: rest6 =>
                    let pm := readDigits rest6
                    if oneOrTwo pm.1 then
                      match pm.2 with
                      | ':' :: rest8 =>
                        let ps := readDigits rest8
                        if oneOrTwo ps.1 then
                          match ps.2 with
                          | ' ' :: tz =>
                            match parseTz tz with
                            | some off =>
                              let year : Int := (digitsToNat py.1 : Int)
                              let day : Int := (digitsToNat pd.1 : Int)
                              let hour : Int := (digitsToNat ph.1 : Int)
                              let minute : Int := (digitsToNat pm.1 : Int)
                              let second : Int := (digitsToNat ps.1 : Int)
                              if 1 ≤ year && 1 ≤ day &&
                                  day ≤ daysInMonth year mon &&
                                  hour ≤ 23 && minute ≤ 59 && second ≤ 59 then
                                some ⟨year, mon, day, hour, minute, second, off⟩
                              else Option.none
                            | Option.none => Option.none
                          | _ => Option.none
                        else Option.none
                      | _ => Option.none
                    else Option.none
                  | _ => Option.none
                else Option.none
              | _ => Option.none
            else Option.none
          | Option.none => Option.none
        | _ => Option.none
      else Option.none
    else Option.none
  | _ => Option.none

/-- An aware `datetime.datetime` value: civil fields, microsecond, and the
UTC offset of its timezone in seconds. -/
structure DateTime where
  year : Int
  month : Int
  day : Int
  hour : Int
  minute : Int
  second : Int
  microsecond : Int
  tzOffsetSeconds : Int
deriving DecidableEq

/-- `datetime.datetime.strptime(s, '%a, %d %b %Y %H:%M:%S %z')` (line 76 of
`purge.py`): parse the components and build an aware datetime.  The format
has no `%f` directive, so strptime leaves the microsecond at its default 0. -/
def strptimeLastModified (s : String) : Option DateTime :=
  (parseParts s).map (fun p =>
    ⟨p.year, p.month, p.day, p.hour, p.minute, p.second, 0, p.tzOffsetSeconds⟩)

/-- Days since 1970-01-01 of a proleptic Gregorian civil date (the standard
era-based conversion; all intermediate divisions act on non-negative
values for the years at hand, `year ≥ 1`). -/
def daysFromCivil (y m d : Int) : Int :=
  let yAdj := if m ≤ 2 then y - 1 else y
  let era : Int := (if 0 ≤ yAdj then yAdj else yAdj - 399) / 400
  let yoe := yAdj - era * 400
  let mp := (m + 9) % 12
  let doy := (153 * mp + 2) / 5 + d - 1
  let doe := yoe * 365 + yoe / 4 - yoe / 100 + doy
  era * 146097 + doe - 719468

/-- Seconds since the Unix epoch of the UTC instant denoted by an aware
datetime, ignoring its microsecond field (aware-datetime subtraction in
Python first normalises both operands to UTC by subtracting `utcoffset()`). -/
def DateTime.toEpochSec (dt : DateTime) : Int :=
  daysFromCivil dt.year dt.month dt.day * 86400 + dt.hour * 3600 +
    dt.minute * 60 + dt.second - dt.tzOffsetSeconds

/-- Microseconds since the Unix epoch of the UTC instant denoted by an
aware datetime. -/
def DateTime.toEpochUsec (dt : DateTime) : Int :=
  dt.toEpochSec * 1000000 + dt.microsecond

/-- The `last_modified_datetime` property (lines 74-76 of `purge.py`):
`strptime` of the `last_modified` field.  When the field holds anything but
a string (for example Python `None` after a missing key), or a string the
format rejects, strptime raises, modelled by `Option.none`. -/
def Tag.last_modified_datetime (t : Tag) : Option DateTime :=
  match t.last_modified with
  | PyValue.str s => strptimeLastModified s
  | _ => Option.none

/-- The `age` property (lines 78-80 of `purge.py`):
`datetime.now(timezone.utc).replace(microsecond=0) - last_modified_datetime`,
a `timedelta` modelled as a signed count of microseconds; `Option.none`
when the `last_modified` value does not parse (the property raises). -/
def Tag.age (t : Tag) (now : DateTime) : Option Int :=
  (t.last_modified_datetime).map (fun lm =>
    DateTime.toEpochUsec { now with microsecond := 0 } - DateTime.toEpochUsec lm)

/-- `timedelta.total_seconds()` of a whole-microsecond duration.  For the
durations this program produces the float result is exact (the magnitude is
far below 2^53 microseconds), so it is modelled as the exact rational
`u / 1000000`, written with `Rat.divInt` (the exact integer quotient). -/
def totalSeconds (u : Int) : ℚ := Rat.divInt u 1000000

/-- Python `int()` applied to a real number: truncation toward zero. -/
def pyIntTrunc (q : ℚ) : Int :=
  if 0 ≤ q then ⌊q⌋ else -⌊-q⌋

/-- Zero-padded two-digit rendering of `%02d`. -/
def pad2 (n : Nat) : String :=
  if n < 10 then "0" ++ toString n else toString n

/-- Zero-padded six-digit rendering of `%06d`. -/
def pad6 (n : Nat) : String :=
  let s := toString n
  String.mk (List.replicate (6 - s.length) '0') ++ s

/-- `str(timedelta)` of CPython on a duration of `u` microseconds: the
normalised `days, seconds, microseconds` decomposition (floor division, so
`0 ≤ seconds < 86400` and `0 ≤ microseconds < 1000000`) rendered as
`[D day(s), ]H:MM:SS[.ffffff]`. -/
def timedeltaStr (u : Int) : String :=
  let days := Int.fdiv u 86400000000
  let rem := (u - days * 86400000000).toNat
  let secs := rem / 1000000
  let us := rem % 1000000
  let hh := secs / 3600
  let mm := (secs / 60) % 60
  let ss := secs % 60
  let clock := toString hh ++ ":" ++ pad2 mm ++ ":" ++ pad2 ss
  let withDays :=
    if days == 0 then clock
    else toString days ++ " day" ++ (if days.natAbs == 1 then "" else "s") ++
      ", " ++ clock
  if us == 0 then withDays else withDays ++ "." ++ pad6 us

/-- Python `int(s)` on a command-line argument: an optional sign followed by
at least one decimal digit.  (CPython additionally strips surrounding
whitespace and allows underscores between digits; command lines do not carry
those forms and they are not modelled.) -/
def pyToInt : String → Option Int
  | s =>
    match s.toList with
    | '-' :: ds =>
      if ds ≠ [] && ds.all isDigitB then some (-(digitsToNat ds : Int))
      else Option.none
    | '+' :: ds =>
      if ds ≠ [] && ds.all isDigitB then some ((digitsToNat ds : Int))
      else Option.none
    | ds =>
      if ds ≠ [] && ds.all isDigitB then some ((digitsToNat ds : Int))
      else Option.none

/-- Lines 20-25 of `purge.py`: the argparse declaration with positionals
`repository` (string) and `age` (`type=int`) and the `--purge` store-true
flag.  Tokens equal to `--purge` set the flag; every other token is a
positional.  argparse exits with a usage error (modelled `Except.error ()`)
when the positionals are not exactly two or `age` is not a valid integer;
an unrecognised option token also ends in a usage error, here through the
positional-count mismatch.  (Option-prefix abbreviation and the `--`
separator are not modelled.) -/
def parseArgs (argv : List String) : Except Unit Config :=
  let positionals := argv.filter (fun a => a ≠ "--purge")
  let purge := argv.contains "--purge"
  match positionals with
  | [repo, ageStr] =>
    match pyToInt ageStr with
    | some a => Except.ok ⟨repo, a, purge⟩
    | Option.none => Except.error ()
  | _ => Except.error ()

/-- An observable effect of a run of `main`: an authenticated HTTP GET, an
authenticated HTTP DELETE, or a chunk of text written to stdout (the chunk
includes the `end=` terminator passed to `print`). -/
inductive Event where
  | httpGet (url : String)
  | httpDelete (url : String)
  | echo (s : String)
deriving DecidableEq

/-- An uncaught Python exception terminating the process: an argparse usage
error (`SystemExit`), a missing environment variable (`KeyError`), a failed
list request (any non-2xx status, network error or malformed JSON body), a
failed delete request, or a `last_modified` value that `strptime` rejects
(`TypeError`/`ValueError` while computing `tag.age`). -/
inductive Abort where
  | usageError
  | keyError (k : String)
  | listError
  | deleteError
  | ageError
deriving DecidableEq

/-- The environment a run of `main` executes in: the command line, the
optional `QUAY_TOKEN` environment value, the outcome of the tag-list request
(`Except.error ()` for any non-2xx status, network failure or malformed
JSON; otherwise the decoded `data['tags']` array of JSON objects), and the
outcome of each delete request, by URL (`true` = 2xx). -/
structure World where
  argv : List String
  quayToken : Option String
  listResponse : Except Unit (List (List (String × PyValue)))
  deleteOk : String → Bool

/-- Line 30 of `purge.py`: the tag endpoint of the configured repository. -/
def endpointFor (repo : String) : String :=
  "https://quay.io/api/v1/repository/" ++ repo ++ "/tag/"

/-- The URL of the list request (line 32 of `purge.py`). -/
def listUrlFor (repo : String) : String :=
  endpointFor repo ++ "?onlyActiveTags=true"

/-- The URL of the delete request for one tag (line 44 of `purge.py`):
the endpoint followed by the f-string rendering of `tag.name`. -/
def deleteUrl (cfg : Config) (t : Tag) : String :=
  endpointFor cfg.repository ++ pyStr t.name

/-- The filter predicate of line 38 of `purge.py`:
`tag.age.total_seconds() > config.age`, `false` when the age is not even
computable (that case aborts the comprehension, handled in
`computeExpired`). -/
def isExpired (cfg : Config) (now : DateTime) (t : Tag) : Bool :=
  match t.age now with
  | some u => decide ((cfg.age : ℚ) < totalSeconds u)
  | Option.none => false

/-- Line 38 of `purge.py`:
`[tag for tag in tags if tag.age.total_seconds() > config.age]`.  The
comprehension evaluates `tag.age` left to right; the first tag whose
`last_modified` does not parse raises, aborting the whole run. -/
def computeExpired (cfg : Config) (now : DateTime) :
    List Tag → Except Abort (List Tag)
  | [] => Except.ok []
  | t :: ts =>
    match t.age now with
    | Option.none => Except.error Abort.ageError
    | some u =>
      match computeExpired cfg now ts with
      | Except.error e => Except.error e
      | Except.ok rest =>
        Except.ok (if (cfg.age : ℚ) < totalSeconds u then t :: rest else rest)

/-- The report line of line 41 of `purge.py` (without the `end=`
terminator):
`f'{config.repository}:{tag.name}  {int(tag.age.total_seconds())}  [{tag.age}]'`
for a tag whose age is `u` microseconds. -/
def reportLine (cfg : Config) (t : Tag) (u : Int) : String :=
  cfg.repository ++ ":" ++ pyStr t.name ++ "  " ++
    toString (pyIntTrunc (totalSeconds u)) ++ "  [" ++ timedeltaStr u ++ "]"

/-- The events one expired tag contributes to a fully successful run of the
loop of lines 40-46: without `--purge` a single stdout line ending in a
newline; with `--purge` the line ending in two spaces, the delete request,
and `deleted` with a newline. -/
def tagBlock (cfg : Config) (now : DateTime) (t : Tag) : List Event :=
  match t.age now with
  | some u =>
    if cfg.purge then
      [Event.echo (reportLine cfg t u ++ "  "),
       Event.httpDelete (deleteUrl cfg t), Event.echo "deleted\n"]
    else [Event.echo (reportLine cfg t u ++ "\n")]
  | Option.none => []

/-- The loop of lines 40-46 of `purge.py` over `expired_tags`: print the
report line (`end='  '` when purging, `end='\n'` otherwise); when purging,
issue the delete request and print `deleted` only after it succeeds, and
abort the process on a failed delete.  Computing `tag.age` for the f-string
can itself raise, aborting before printing. -/
def reportLoop (cfg : Config) (now : DateTime) (delOk : String → Bool) :
    List Tag → List Event × Except Abort Unit
  | [] => ([], Except.ok ())
  | t :: ts =>
    match t.age now with
    | Option.none => ([], Except.error Abort.ageError)
    | some u =>
      if cfg.purge then
        let url := deleteUrl cfg t
        if delOk url then
          let rest := reportLoop cfg now delOk ts
          (Event.echo (reportLine cfg t u ++ "  ") :: Event.httpDelete url ::
            Event.echo "deleted\n" :: rest.1, rest.2)
        else
          ([Event.echo (reportLine cfg t u ++ "  "), Event.httpDelete url],
           Except.error Abort.deleteError)
      else
        let rest := reportLoop cfg now delOk ts
        (Event.echo (reportLine cfg t u ++ "\n") :: rest.1, rest.2)

/-- The whole of `main` (lines 18-46 of `purge.py`) at a fixed reference
instant `now`: parse the command line (abort with a usage error on
failure), read `QUAY_TOKEN` (abort with a `KeyError` when unset), build the
`Config` by deserialising the argparse namespace, issue the list request
(abort on any failure), deserialise each element of `data['tags']` into a
`Tag`, build `expired_tags`, and run the report/delete loop.  The value is
the trace of observable events paired with the termination outcome. -/
def runMain (w : World) (now : DateTime) : List Event × Except Abort Unit :=
  match parseArgs w.argv with
  | Except.error _ => ([], Except.error Abort.usageError)
  | Except.ok cfg =>
    match w.quayToken with
    | Option.none => ([], Except.error (Abort.keyError "QUAY_TOKEN"))
    | some _ =>
      match w.listResponse with
      | Except.error _ =>
        ([Event.httpGet (listUrlFor cfg.repository)], Except.error Abort.listError)
      | Except.ok dicts =>
        match computeExpired cfg now (dicts.map deserializeTag) with
        | Except.error e =>
          ([Event.httpGet (listUrlFor cfg.repository)], Except.error e)
        | Except.ok expired =>
          let loop := reportLoop cfg now w.deleteOk expired
          (Event.httpGet (listUrlFor cfg.repository) :: loop.1, loop.2)

/-! Concrete fixtures used by the witness and counterexample theorems.
`2006-01-02 15:04:05 +0000` is a Monday; `fixedNow` is ten seconds and
123456 microseconds after it. -/

/-- A reference instant with a non-zero microsecond field, to exercise the
truncation in `Tag.age`. -/
def fixedNow : DateTime := ⟨2006, 1, 2, 15, 4, 15, 123456, 0⟩

/-- A registry record as returned in `data['tags']`, carrying one extra
undeclared key that `deserialize` must ignore. -/
def tagDictA : List (String × PyValue) :=
  [("name", PyValue.str "v1"), ("reversion", PyValue.bool false),
   ("start_ts", PyValue.int 1136214245),
   ("manifest_digest", PyValue.str "sha256:abc"),
   ("is_manifest_list", PyValue.bool false), ("size", PyValue.int 123),
   ("last_modified", PyValue.str "Mon, 02 Jan 2006 15:04:05 +0000"),
   ("extra_key", PyValue.str "ignored")]

/-- The tag of `tagDictA`: ten seconds old at `fixedNow`. -/
def tagA : Tag :=
  ⟨PyValue.str "v1", PyValue.bool false, PyValue.int 1136214245,
   PyValue.str "sha256:abc", PyValue.bool false, PyValue.int 123,
   PyValue.str "Mon, 02 Jan 2006 15:04:05 +0000"⟩

/-- A registry record for a tag exactly five seconds old at `fixedNow`. -/
def tagDictB : List (String × PyValue) :=
  [("name", PyValue.str "v2"), ("reversion", PyValue.bool false),
   ("start_ts", PyValue.int 1136214250),
   ("manifest_digest", PyValue.str "sha256:def"),
   ("is_manifest_list", PyValue.bool false), ("size", PyValue.int 456),
   ("last_modified", PyValue.str "Mon, 02 Jan 2006 15:04:10 +0000")]

/-- The tag of `tagDictB`: exactly five seconds old at `fixedNow`. -/
def tagB : Tag :=
  ⟨PyValue.str "v2", PyValue.bool false, PyValue.int 1136214250,
   PyValue.str "sha256:def", PyValue.bool false, PyValue.int 456,
   PyValue.str "Mon, 02 Jan 2006 15:04:10 +0000"⟩

/-- A tag whose `last_modified` lies ten seconds in the future of
`fixedNow`, so its age is negative. -/
def tagFuture : Tag :=
  ⟨PyValue.str "vf", PyValue.bool false, PyValue.int 1136214265,
   PyValue.str "sha256:fff", PyValue.bool false, PyValue.int 789,
   PyValue.str "Mon, 02 Jan 2006 15:04:25 +0000"⟩

/-- A configuration with threshold five seconds, not purging. -/
def cfgFive : Config := ⟨"myrepo", 5, false⟩

/-- The same configuration with `--purge` set. -/
def cfgFivePurge : Config := ⟨"myrepo", 5, true⟩

/-- A configuration with a negative threshold. -/
def cfgNeg : Config := ⟨"myrepo", -1, false⟩

/-- A dry-run world: both fixture tags listed, all deletes would succeed. -/
def worldDry : World :=
  ⟨["myrepo", "5"], some "token123", Except.ok [tagDictA, tagDictB],
   fun _ => true⟩

/-- The same world with `--purge` on the command line. -/
def worldPurge : World :=
  ⟨["myrepo", "5", "--purge"], some "token123",
   Except.ok [tagDictA, tagDictB], fun _ => true⟩

/-- A world whose list request fails (for example HTTP 401). -/
def worldListFail : World :=
  ⟨["myrepo", "5"], some "token123", Except.error (), fun _ => true⟩

/-- A world with an empty command line and no `QUAY_TOKEN`. -/
def worldNoArgs : World :=
  ⟨[], Option.none, Except.error (), fun _ => true⟩

/-- A world with valid arguments but no `QUAY_TOKEN`. -/
def worldNoToken : World :=
  ⟨["myrepo", "5"], Option.none, Except.ok [tagDictA], fun _ => true⟩

/-- The purge world with every delete request failing. -/
def worldPurgeFail : World :=
  ⟨["myrepo", "5", "--purge"], some "token123",
   Except.ok [tagDictA, tagDictB], fun _ => false⟩

/-- The parse of the fixture timestamp `Mon, 02 Jan 2006 15:04:05 +0000`. -/
def dtFix : DateTime := ⟨2006, 1, 2, 15, 4, 5, 0, 0⟩

/-! Helper lemmas about the embedded operations. -/

/-- The filter predicate of line 38 holds exactly when the age is computable
and its total seconds strictly exceed the threshold. -/
theorem isExpired_true_iff (cfg : Config) (now : DateTime) (t : Tag) :
    isExpired cfg now t = true ↔
      ∃ u, t.age now = some u ∧ (cfg.age : ℚ) < totalSeconds u := by
  cases h : t.age now with
  | none => simp [isExpired, h]
  | some u => simp [isExpired, h]

/-- Inversion of a successful run of the list comprehension of line 38:
every listed tag had a computable age, and the result is the order-preserving
filter of the input by the expiry predicate. -/
theorem computeExpired_ok_inv (cfg : Config) (now : DateTime) :
    ∀ (tags expired : List Tag),
      computeExpired cfg now tags = Except.ok expired →
      (∀ t ∈ tags, (t.age now).isSome) ∧
        expired = tags.filter (isExpired cfg now) := by
  intro tags
  induction tags with
  | nil =>
    intro expired h
    simp [computeExpired] at h
    subst h
    simp
  | cons t ts ih =>
    intro expired h
    cases hu : t.age now with
    | none => simp [computeExpired, hu] at h
    | some u =>
      cases hr : computeExpired cfg now ts with
      | error e => simp [computeExpired, hu, hr] at h
      | ok rest =>
        simp only [computeExpired, hu, hr] at h
        obtain ⟨hall, hrest⟩ := ih rest hr
        injection h with h
        constructor
        · intro x hx
          rcases List.mem_cons.mp hx with h1 | h2
          · rw [h1, hu]; rfl
          · exact hall x h2
        · rw [← h, hrest, List.filter_cons]
          by_cases hc : (cfg.age : ℚ) < totalSeconds u
          · simp [hc, isExpired, hu]
          · simp [hc, isExpired, hu]

/-- A fully successful pass of the loop of lines 40-46 (every age
computable, every issued delete succeeding) emits exactly one block of
events per expired tag, in list order, and terminates normally. -/
theorem reportLoop_ok_join (cfg : Config) (now : DateTime)
    (delOk : String → Bool) :
    ∀ l : List Tag,
      (∀ t ∈ l, (t.age now).isSome ∧
        (cfg.purge = true → delOk (deleteUrl cfg t) = true)) →
      reportLoop cfg now delOk l =
        ((l.map (tagBlock cfg now)).flatten, Except.ok ()) := by
  intro l
  induction l with
  | nil => intro _; simp [reportLoop]
  | cons t ts ih =>
    intro h
    obtain ⟨hsome, hdel⟩ := h t (List.mem_cons_self t ts)
    obtain ⟨u, hu⟩ := Option.isSome_iff_exists.mp hsome
    have hrest := ih (fun x hx => h x (List.mem_cons_of_mem t hx))
    cases hp : cfg.purge with
    | false => simp [reportLoop, hu, hp, hrest, tagBlock]
    | true => simp [reportLoop, hu, hp, hrest, tagBlock, hdel hp]

/-- A pass of the loop whose first failing delete is at tag `t`: the
preceding tags are fully processed (printed and deleted), `t`'s line is
printed and its delete issued, and the run aborts, touching none of the
remaining tags. -/
theorem reportLoop_fail_first (cfg : Config) (now : DateTime)
    (delOk : String → Bool) (hp : cfg.purge = true) :
    ∀ (pre : List Tag) (t : Tag) (post : List Tag) (u : Int),
      (∀ x ∈ pre, (x.age now).isSome ∧ delOk (deleteUrl cfg x) = true) →
      t.age now = some u → delOk (deleteUrl cfg t) = false →
      reportLoop cfg now delOk (pre ++ t :: post) =
        ((pre.map (tagBlock cfg now)).flatten ++
          [Event.echo (reportLine cfg t u ++ "  "),
           Event.httpDelete (deleteUrl cfg t)],
         Except.error Abort.deleteError) := by
  intro pre
  induction pre with
  | nil =>
    intro t post u _ hu hfail
    simp [reportLoop, hu, hp, hfail]
  | cons x xs ih =>
    intro t post u hpre hu hfail
    obtain ⟨hsome, hdel⟩ := hpre x (List.mem_cons_self x xs)
    obtain ⟨v, hv⟩ := Option.isSome_iff_exists.mp hsome
    have hrest := ih t post u (fun y hy => hpre y (List.mem_cons_of_mem x hy))
      hu hfail
    simp [reportLoop, hv, hp, hdel, hrest, tagBlock]

/-- Without `--purge` the loop of lines 40-46 never issues a delete request
and its outcome does not depend on the delete responses at all. -/
theorem reportLoop_purge_false (cfg : Config) (now : DateTime)
    (hp : cfg.purge = false) :
    ∀ (l : List Tag) (f g : String → Bool),
      reportLoop cfg now f l = reportLoop cfg now g l ∧
      ∀ url, Event.httpDelete url ∉ (reportLoop cfg now f l).1 := by
  intro l
  induction l with
  | nil => intro f g; simp [reportLoop]
  | cons t ts ih =>
    intro f g
    cases hu : t.age now with
    | none => simp [reportLoop, hu]
    | some u =>
      obtain ⟨heq, hnone⟩ := ih f g
      refine ⟨?_, ?_⟩
      · simp [reportLoop, hu, hp, heq]
      · intro url
        simp only [reportLoop, hu, hp, Bool.false_eq_true, if_false,
          List.mem_cons]
        intro hmem
        rcases hmem with h1 | h2
        · exact Event.noConfusion h1
        · exact hnone url h2

/-- Looking a field up in the keyword-argument record built by `deserialize`
returns the `dict.get` of that field from the input record. -/
theorem lookup_map_pair (g : String → PyValue) :
    ∀ (fs : List String) (f : String), f ∈ fs →
      (fs.map (fun x => (x, g x))).lookup f = some (g f) := by
  intro fs
  induction fs with
  | nil => intro f hf; exact absurd hf (List.not_mem_nil f)
  | cons a as ih =>
    intro f hf
    by_cases hfa : a = f
    · subst hfa
      simp [List.lookup]
    · rcases List.mem_cons.mp hf with h1 | h2
      · exact absurd h1.symm hfa
      · have hb : (f == a) = false :=
          beq_eq_false_iff_ne.mpr (fun hh => hfa hh.symm)
        simp only [List.map_cons, List.lookup, hb]
        exact ih f h2

/-- Every datetime produced by `strptime` with the program's format has a
zero microsecond field: the format has no `%f` directive. -/
theorem strptime_microsecond_zero (s : String) (dt : DateTime)
    (h : strptimeLastModified s = some dt) : dt.microsecond = 0 := by
  unfold strptimeLastModified at h
  cases hp : parseParts s with
  | none => rw [hp] at h; exact Option.noConfusion h
  | some p =>
    rw [hp] at h
    injection h with h
    rw [← h]

/-- `total_seconds` of a whole number of seconds is that integer exactly. -/
theorem totalSeconds_whole (k : Int) :
    totalSeconds (k * 1000000) = (k : ℚ) := by
  unfold totalSeconds
  rw [Rat.divInt_eq_div]
  push_cast
  field_simp

/-- A datetime with a zero microsecond field denotes a whole-second epoch
instant. -/
theorem toEpochUsec_zero_micro (dt : DateTime) (h : dt.microsecond = 0) :
    dt.toEpochUsec = dt.toEpochSec * 1000000 := by
  unfold DateTime.toEpochUsec
  rw [h]
  ring

/-- Python `int()` of an integral rational is the integer itself. -/
theorem pyIntTrunc_intCast (k : Int) : pyIntTrunc ((k : ℚ)) = k := by
  unfold pyIntTrunc
  by_cases h : (0 : ℚ) ≤ (k : ℚ)
  · simp [h, Int.floor_intCast]
  · rw [if_neg h, ← Int.cast_neg, Int.floor_intCast, neg_neg]

/-! Claim theorems. -/

/-- C1: for every fetched tag, the tag is a member of `expired_tags` iff its
age in seconds (the `total_seconds()` of its `timedelta`) is strictly
greater than `config.age`; a tag whose age is less than or equal to
`config.age` — in particular exactly equal — is excluded, and `expired_tags`
is exactly the filter of the fetched list by that predicate, so an excluded
tag is never iterated by the output loop. -/
theorem c1_expired_membership (cfg : Config) (now : DateTime)
    (tags expired : List Tag)
    (h : computeExpired cfg now tags = Except.ok expired) :
    (∀ t, t ∈ expired ↔
      t ∈ tags ∧ ∃ u, t.age now = some u ∧ (cfg.age : ℚ) < totalSeconds u)
    ∧ (∀ t u, t ∈ tags → t.age now = some u →
        totalSeconds u ≤ (cfg.age : ℚ) → t ∉ expired)
    ∧ expired = tags.filter (isExpired cfg now) := by
  obtain ⟨hall, he⟩ := computeExpired_ok_inv cfg now tags expired h
  subst he
  refine ⟨?_, ?_, rfl⟩
  · intro t
    rw [List.mem_filter, isExpired_true_iff]
  · intro t u _ hu hle hmem
    rw [List.mem_filter, isExpired_true_iff] at hmem
    obtain ⟨-, v, hv, hlt⟩ := hmem
    rw [hu] at hv
    injection hv with hv
    subst hv
    exact absurd hlt (not_lt.mpr hle)

/-- C1 witness: with threshold 5 s at the fixed reference instant, the
ten-second-old tag is expired and the exactly-five-second-old boundary tag
is excluded. -/
theorem c1_expired_membership_witness :
    tagA ∈ ([tagA] : List Tag) ∧ tagB ∉ ([tagA] : List Tag) := by
  have h := c1_expired_membership cfgFive fixedNow [tagA, tagB] [tagA] rfl
  exact ⟨(h.1 tagA).mpr ⟨by simp, 10000000, rfl, by decide⟩,
    h.2.1 tagB 5000000 (by simp) rfl (by decide)⟩

/-- C3 counterexample: with the negative threshold -1 s, a fetched tag whose
`last_modified` lies in the future (age -10 s) is not selected, so a
negative `config.age` does not make every fetched tag match. -/
theorem c3_counterexample :
    cfgNeg.age < 0 ∧
      computeExpired cfgNeg fixedNow [tagFuture] = Except.ok [] := by
  exact ⟨by decide, rfl⟩

/-- C3 (amended): negative values of `config.age` are accepted without
validation (a command line whose `age` token parses to a negative integer
parses successfully), and they cause every fetched tag whose age is
non-negative — hence every tag not modified in the future — to be selected
into `expired_tags`; only a tag whose age is `≤ config.age` (possible only
with a future `last_modified`) is still excluded. -/
theorem c3_negative_age (r s : String) (n : Int) (cfg : Config)
    (now : DateTime) (tags expired : List Tag)
    (hr : r ≠ "--purge") (hs : pyToInt s = some n) (hneg : n < 0)
    (hcfg : cfg.age = n)
    (h : computeExpired cfg now tags = Except.ok expired) :
    parseArgs [r, s] = Except.ok ⟨r, n, false⟩
    ∧ ∀ t u, t ∈ tags → t.age now = some u → 0 ≤ u → t ∈ expired := by
  have hsp : s ≠ "--purge" := by
    intro hh
    rw [hh] at hs
    exact Option.noConfusion ((by decide : pyToInt "--purge" = Option.none) ▸ hs)
  constructor
  · simp [parseArgs, List.filter, hr, hsp, hs]
    exact ⟨fun hh => hr hh.symm, fun hh => hsp hh.symm⟩
  · intro t u ht hu hu0
    obtain ⟨hall, he⟩ := computeExpired_ok_inv cfg now tags expired h
    subst he
    rw [List.mem_filter, isExpired_true_iff]
    refine ⟨ht, u, hu, ?_⟩
    have h1 : (cfg.age : ℚ) < 0 := by
      rw [hcfg]
      exact_mod_cast hneg
    have h2 : (0 : ℚ) ≤ totalSeconds u := by
      unfold totalSeconds
      rw [Rat.divInt_eq_div]
      have hu' : (0 : ℚ) ≤ (u : ℚ) := by exact_mod_cast hu0
      exact div_nonneg hu' (by norm_num)
    exact lt_of_lt_of_le h1 h2

/-- C3 witness: the command line `myrepo -1` parses to the negative
threshold -1, and at that threshold the ten-second-old fixture tag (age
non-negative) is selected. -/
theorem c3_negative_age_witness :
    parseArgs ["myrepo", "-1"] = Except.ok ⟨"myrepo", -1, false⟩
    ∧ ∀ t u, t ∈ [tagA] → t.age fixedNow = some u → 0 ≤ u → t ∈ [tagA] :=
  c3_negative_age "myrepo" "-1" (-1) cfgNeg fixedNow [tagA] [tagA]
    (by decide) (by decide) (by decide) rfl rfl

/-- C4 counterexample: deserialising the empty record as a `Tag` puts
Python `None` in the missing fields, not a type-appropriate default — the
resulting `name` is neither the empty string nor any string, and the
resulting `start_ts` is not zero. -/
theorem c4_counterexample :
    (deserializeTag []).name = PyValue.none
    ∧ (deserializeTag []).name ≠ PyValue.str ""
    ∧ (deserializeTag []).start_ts ≠ PyValue.int 0 := by
  refine ⟨rfl, ?_, ?_⟩ <;> decide

/-- C4 (amended): `deserialize` reads exactly the fields declared on the
target dataclass — two records that agree on the declared fields
deserialise identically, so every other key is ignored — and a field absent
from the input record yields Python `None` (the `dict.get` default) in the
resulting record rather than raising an error; it is not replaced by a
type-appropriate default such as the empty string or zero. -/
theorem c4_deserialize_declared_fields (d1 d2 : List (String × PyValue))
    (h : ∀ f ∈ Tag.fields, pyGet d1 f = pyGet d2 f) :
    deserializeTag d1 = deserializeTag d2
    ∧ (∀ (d : List (String × PyValue)) (f : String), f ∈ Tag.fields →
        d.lookup f = Option.none →
        (deserialize d Tag.fields).lookup f = some PyValue.none) := by
  constructor
  · have e1 : ∀ d : List (String × PyValue), deserializeTag d =
        ⟨pyGet d "name", pyGet d "reversion", pyGet d "start_ts",
         pyGet d "manifest_digest", pyGet d "is_manifest_list",
         pyGet d "size", pyGet d "last_modified"⟩ := fun d => rfl
    rw [e1 d1, e1 d2, h "name" (by decide), h "reversion" (by decide),
      h "start_ts" (by decide), h "manifest_digest" (by decide),
      h "is_manifest_list" (by decide), h "size" (by decide),
      h "last_modified" (by decide)]
  · intro d f hf habsent
    have := lookup_map_pair (pyGet d) Tag.fields f hf
    unfold deserialize
    rw [this]
    unfold pyGet
    rw [habsent]

/-- C4 witness: the registry fixture record (which carries an extra
undeclared key) and the plain seven-field serialisation of the same tag
agree on the declared fields, so they deserialise to the same `Tag`; and a
declared field missing from a record surfaces as Python `None`. -/
theorem c4_deserialize_declared_fields_witness :
    deserializeTag tagDictA = deserializeTag (serializeTag tagA)
    ∧ (∀ (d : List (String × PyValue)) (f : String), f ∈ Tag.fields →
        d.lookup f = Option.none →
        (deserialize d Tag.fields).lookup f = some PyValue.none) :=
  c4_deserialize_declared_fields tagDictA (serializeTag tagA) (by decide)

/-- C9: serialising the seven named fields of any `Tag` to a key-value
record and deserialising that record back reproduces the whole tag — in
particular the same `name` and `last_modified` — and therefore the same
derived age at any fixed reference instant. -/
theorem c9_roundtrip (t : Tag) (now : DateTime) :
    deserializeTag (serializeTag t) = t
    ∧ (deserializeTag (serializeTag t)).name = t.name
    ∧ (deserializeTag (serializeTag t)).last_modified = t.last_modified
    ∧ (deserializeTag (serializeTag t)).age now = t.age now := by
  exact ⟨rfl, rfl, rfl, rfl⟩

/-- C10: every datetime the format `%a, %d %b %Y %H:%M:%S %z` produces has
microsecond 0, and — the reference instant being truncated to microsecond 0
before the subtraction — every computable tag age is an exact whole number
of seconds `k`; `total_seconds()` is exactly `k` and the printed
`int(tag.age.total_seconds())` is exactly `k`, with no rounding or
truncation loss. -/
theorem c10_whole_second_ages :
    (∀ (s : String) (dt : DateTime),
      strptimeLastModified s = some dt → dt.microsecond = 0)
    ∧ (∀ (t : Tag) (now : DateTime) (u : Int), t.age now = some u →
        ∃ k : Int, u = k * 1000000 ∧ totalSeconds u = (k : ℚ)
          ∧ pyIntTrunc (totalSeconds u) = k) := by
  constructor
  · exact strptime_microsecond_zero
  · intro t now u h
    unfold Tag.age at h
    cases hlm : t.last_modified_datetime with
    | none => rw [hlm] at h; exact Option.noConfusion h
    | some lm =>
      rw [hlm] at h
      injection h with h
      have hz : lm.microsecond = 0 := by
        unfold Tag.last_modified_datetime at hlm
        cases hv : t.last_modified with
        | str s =>
          rw [hv] at hlm
          exact strptime_microsecond_zero s lm hlm
        | none => rw [hv] at hlm; exact Option.noConfusion hlm
        | int n => rw [hv] at hlm; exact Option.noConfusion hlm
        | bool b => rw [hv] at hlm; exact Option.noConfusion hlm
      have hu2 : u =
          (DateTime.toEpochSec { now with microsecond := 0 } -
            lm.toEpochSec) * 1000000 := by
        rw [← h]
        show DateTime.toEpochUsec { now with microsecond := 0 } -
          DateTime.toEpochUsec lm = _
        rw [toEpochUsec_zero_micro { now with microsecond := 0 } rfl,
          toEpochUsec_zero_micro lm hz]
        ring
      refine ⟨DateTime.toEpochSec { now with microsecond := 0 } -
        lm.toEpochSec, hu2, ?_, ?_⟩
      · rw [hu2, totalSeconds_whole]
      · rw [hu2, totalSeconds_whole, pyIntTrunc_intCast]

/-- C10 witness: the fixture timestamp parses with microsecond 0, and the
fixture tag's age at the fixed reference instant is exactly ten whole
seconds, printed as the integer 10. -/
theorem c10_whole_second_ages_witness :
    dtFix.microsecond = 0
    ∧ ∃ k : Int, (10000000 : Int) = k * 1000000
        ∧ totalSeconds 10000000 = (k : ℚ)
        ∧ pyIntTrunc (totalSeconds 10000000) = k :=
  ⟨c10_whole_second_ages.1 "Mon, 02 Jan 2006 15:04:05 +0000" dtFix rfl,
   c10_whole_second_ages.2 tagA fixedNow 10000000 rfl⟩

/-- C2: `expired_tags` is an order-preserving sublist of the list the
registry returned (no sorting or reordering), and in a run whose deletes
all succeed the trace after the single GET is exactly one block of events
per expired tag, in that same relative order, each block containing exactly
one report line for its tag. -/
theorem c2_order_and_lines (w : World) (now : DateTime) (cfg : Config)
    (tok : String) (dicts : List (List (String × PyValue)))
    (expired : List Tag)
    (h1 : parseArgs w.argv = Except.ok cfg)
    (h2 : w.quayToken = some tok)
    (h3 : w.listResponse = Except.ok dicts)
    (h4 : computeExpired cfg now (dicts.map deserializeTag) = Except.ok expired)
    (h5 : ∀ t ∈ expired, cfg.purge = true → w.deleteOk (deleteUrl cfg t) = true) :
    expired.Sublist (dicts.map deserializeTag)
    ∧ (runMain w now).1 =
        Event.httpGet (listUrlFor cfg.repository) ::
          (expired.map (tagBlock cfg now)).flatten
    ∧ ∀ t ∈ expired, ∃ u, t.age now = some u ∧
        tagBlock cfg now t =
          (if cfg.purge then
            [Event.echo (reportLine cfg t u ++ "  "),
             Event.httpDelete (deleteUrl cfg t), Event.echo "deleted\n"]
          else [Event.echo (reportLine cfg t u ++ "\n")]) := by
  obtain ⟨hall, he⟩ := computeExpired_ok_inv cfg now
    (dicts.map deserializeTag) expired h4
  have hmem : ∀ t ∈ expired, t ∈ dicts.map deserializeTag := by
    intro t ht
    rw [he] at ht
    exact List.mem_of_mem_filter ht
  have hloop := reportLoop_ok_join cfg now w.deleteOk expired
    (fun t ht => ⟨hall t (hmem t ht), h5 t ht⟩)
  refine ⟨?_, ?_, ?_⟩
  · rw [he]
    exact List.filter_sublist (dicts.map deserializeTag)
  · simp [runMain, h1, h2, h3, h4, hloop]
  · intro t ht
    obtain ⟨u, hu⟩ := Option.isSome_iff_exists.mp (hall t (hmem t ht))
    exact ⟨u, hu, by simp [tagBlock, hu]⟩

/-- C2 witness: in the purge world both fixture tags are fetched, only the
ten-second-old tag is expired, and the trace is the GET followed by that
tag's single three-event block. -/
theorem c2_order_and_lines_witness :
    ([tagA] : List Tag).Sublist ([tagDictA, tagDictB].map deserializeTag)
    ∧ (runMain worldPurge fixedNow).1 =
        Event.httpGet (listUrlFor cfgFivePurge.repository) ::
          (([tagA] : List Tag).map (tagBlock cfgFivePurge fixedNow)).flatten
    ∧ ∀ t ∈ ([tagA] : List Tag), ∃ u, t.age fixedNow = some u ∧
        tagBlock cfgFivePurge fixedNow t =
          (if cfgFivePurge.purge then
            [Event.echo (reportLine cfgFivePurge t u ++ "  "),
             Event.httpDelete (deleteUrl cfgFivePurge t),
             Event.echo "deleted\n"]
          else [Event.echo (reportLine cfgFivePurge t u ++ "\n")]) :=
  c2_order_and_lines worldPurge fixedNow cfgFivePurge "token123"
    [tagDictA, tagDictB] [tagA] rfl rfl rfl rfl
    (fun _ _ _ => rfl)

/-- C5: for an expired tag with age `u` microseconds the report line is
`{repository}:{tag_name}  {age_in_whole_seconds}  [{human_readable_duration}]`;
with `purge` set the line is printed with no trailing newline (it ends in
two spaces), then the DELETE request for the tag endpoint is issued, and
`deleted` plus a newline is printed only when that delete succeeded — on a
failed delete the run aborts without printing it; with `purge` unset the
line ends with a newline and no delete request is ever issued. -/
theorem c5_report_and_delete (cfg : Config) (now : DateTime)
    (delOk : String → Bool) (t : Tag) (ts : List Tag) (u : Int)
    (h : t.age now = some u) :
    reportLine cfg t u = cfg.repository ++ ":" ++ pyStr t.name ++ "  " ++
        toString (pyIntTrunc (totalSeconds u)) ++ "  [" ++ timedeltaStr u ++ "]"
    ∧ (cfg.purge = true → delOk (deleteUrl cfg t) = true →
        reportLoop cfg now delOk (t :: ts) =
          (Event.echo (reportLine cfg t u ++ "  ") ::
             Event.httpDelete (deleteUrl cfg t) :: Event.echo "deleted\n" ::
             (reportLoop cfg now delOk ts).1,
           (reportLoop cfg now delOk ts).2))
    ∧ (cfg.purge = true → delOk (deleteUrl cfg t) = false →
        reportLoop cfg now delOk (t :: ts) =
          ([Event.echo (reportLine cfg t u ++ "  "),
            Event.httpDelete (deleteUrl cfg t)],
           Except.error Abort.deleteError))
    ∧ (cfg.purge = false →
        reportLoop cfg now delOk (t :: ts) =
          (Event.echo (reportLine cfg t u ++ "\n") ::
             (reportLoop cfg now delOk ts).1,
           (reportLoop cfg now delOk ts).2)
        ∧ ∀ (l : List Tag) (url : String),
            Event.httpDelete url ∉ (reportLoop cfg now delOk l).1) := by
  refine ⟨rfl, ?_, ?_, ?_⟩
  · intro hp hd
    simp [reportLoop, h, hp, hd]
  · intro hp hd
    simp [reportLoop, h, hp, hd]
  · intro hp
    refine ⟨by simp [reportLoop, h, hp], ?_⟩
    intro l url
    exact (reportLoop_purge_false cfg now hp l delOk delOk).2 url

/-- C5 witness: the fixture tag at the fixed instant, under the purge
configuration with succeeding deletes. -/
theorem c5_report_and_delete_witness :
    reportLine cfgFivePurge tagA 10000000 =
        cfgFivePurge.repository ++ ":" ++ pyStr tagA.name ++ "  " ++
          toString (pyIntTrunc (totalSeconds 10000000)) ++ "  [" ++
          timedeltaStr 10000000 ++ "]"
    ∧ (cfgFivePurge.purge = true →
        (fun _ => true) (deleteUrl cfgFivePurge tagA) = true →
        reportLoop cfgFivePurge fixedNow (fun _ => true) [tagA] =
          (Event.echo (reportLine cfgFivePurge tagA 10000000 ++ "  ") ::
             Event.httpDelete (deleteUrl cfgFivePurge tagA) ::
             Event.echo "deleted\n" ::
             (reportLoop cfgFivePurge fixedNow (fun _ => true) []).1,
           (reportLoop cfgFivePurge fixedNow (fun _ => true) []).2))
    ∧ (cfgFivePurge.purge = true →
        (fun _ => true) (deleteUrl cfgFivePurge tagA) = false →
        reportLoop cfgFivePurge fixedNow (fun _ => true) [tagA] =
          ([Event.echo (reportLine cfgFivePurge tagA 10000000 ++ "  "),
            Event.httpDelete (deleteUrl cfgFivePurge tagA)],
           Except.error Abort.deleteError))
    ∧ (cfgFivePurge.purge = false →
        reportLoop cfgFivePurge fixedNow (fun _ => true) [tagA] =
          (Event.echo (reportLine cfgFivePurge tagA 10000000 ++ "\n") ::
             (reportLoop cfgFivePurge fixedNow (fun _ => true) []).1,
           (reportLoop cfgFivePurge fixedNow (fun _ => true) []).2)
        ∧ ∀ (l : List Tag) (url : String),
            Event.httpDelete url ∉
              (reportLoop cfgFivePurge fixedNow (fun _ => true) l).1) :=
  c5_report_and_delete cfgFivePurge fixedNow (fun _ => true) tagA [] 10000000
    rfl

/-- C6: with valid configuration, a failed list request (any non-2xx
status such as HTTP 401, network error, or malformed JSON) aborts the run
with the GET as the only event — before any output line and before any
delete; and when a delete fails partway through the loop, the trace shows
the full blocks (line, delete, `deleted`) of the previously processed tags,
then the failing tag's line and its single delete attempt, and nothing for
the remaining expired tags — no retry, no rollback, no further
processing. -/
theorem c6_abort_semantics (w : World) (now : DateTime) (cfg : Config)
    (tok : String)
    (h1 : parseArgs w.argv = Except.ok cfg) (h2 : w.quayToken = some tok) :
    (w.listResponse = Except.error () →
      runMain w now = ([Event.httpGet (listUrlFor cfg.repository)],
        Except.error Abort.listError))
    ∧ (∀ (dicts : List (List (String × PyValue))) (pre post : List Tag)
        (t : Tag) (u : Int),
        w.listResponse = Except.ok dicts →
        computeExpired cfg now (dicts.map deserializeTag) =
          Except.ok (pre ++ t :: post) →
        cfg.purge = true →
        (∀ x ∈ pre, w.deleteOk (deleteUrl cfg x) = true) →
        t.age now = some u →
        w.deleteOk (deleteUrl cfg t) = false →
        runMain w now =
          (Event.httpGet (listUrlFor cfg.repository) ::
             ((pre.map (tagBlock cfg now)).flatten ++
              [Event.echo (reportLine cfg t u ++ "  "),
               Event.httpDelete (deleteUrl cfg t)]),
           Except.error Abort.deleteError)) := by
  constructor
  · intro h3
    simp [runMain, h1, h2, h3]
  · intro dicts pre post t u h3 h4 hp hpre hu hfail
    obtain ⟨hall, he⟩ := computeExpired_ok_inv cfg now
      (dicts.map deserializeTag) (pre ++ t :: post) h4
    have hmem : ∀ x ∈ pre, x ∈ dicts.map deserializeTag := by
      intro x hx
      have : x ∈ pre ++ t :: post := List.mem_append_left _ hx
      rw [he] at this
      exact List.mem_of_mem_filter this
    have hloop := reportLoop_fail_first cfg now w.deleteOk hp pre t post u
      (fun x hx => ⟨hall x (hmem x hx), hpre x hx⟩) hu hfail
    simp [runMain, h1, h2, h3, h4, hloop]

/-- C6 witness: in the purge world with every delete failing, the run
aborts at the first expired tag — its line and delete attempt are the only
events after the GET, and the boundary tag is untouched. -/
theorem c6_abort_semantics_witness :
    runMain worldPurgeFail fixedNow =
      (Event.httpGet (listUrlFor cfgFivePurge.repository) ::
         ((([] : List Tag).map (tagBlock cfgFivePurge fixedNow)).flatten ++
          [Event.echo (reportLine cfgFivePurge tagA 10000000 ++ "  "),
           Event.httpDelete (deleteUrl cfgFivePurge tagA)]),
       Except.error Abort.deleteError) :=
  (c6_abort_semantics worldPurgeFail fixedNow cfgFivePurge "token123"
    rfl rfl).2 [tagDictA, tagDictB] [] [] tagA 10000000 rfl rfl rfl
    (fun x hx => absurd hx (List.not_mem_nil x)) rfl rfl

/-- C7: configuration errors abort before any event at all (in particular
before the list request): an unparsable command line aborts with the
argparse usage error; a parsable command line with `QUAY_TOKEN` unset
aborts with the `KeyError`; and the command line fails to parse when the
positionals are missing (none, or only one of `repository`/`age`) or when
the `age` token is not a valid integer. -/
theorem c7_config_errors (w : World) (now : DateTime) :
    (parseArgs w.argv = Except.error () →
      runMain w now = ([], Except.error Abort.usageError))
    ∧ (∀ cfg, parseArgs w.argv = Except.ok cfg → w.quayToken = Option.none →
        runMain w now = ([], Except.error (Abort.keyError "QUAY_TOKEN")))
    ∧ parseArgs [] = Except.error ()
    ∧ (∀ r, parseArgs [r] = Except.error ())
    ∧ (∀ r s, pyToInt s = Option.none → parseArgs [r, s] = Except.error ()) := by
  refine ⟨?_, ?_, rfl, ?_, ?_⟩
  · intro h
    simp [runMain, h]
  · intro cfg h htok
    simp [runMain, h, htok]
  · intro r
    by_cases hr : r = "--purge"
    · simp [parseArgs, List.filter, hr]
    · simp [parseArgs, List.filter, hr]
  · intro r s hs
    by_cases hr : r = "--purge"
    · by_cases hsp : s = "--purge"
      · simp [parseArgs, List.filter, hr, hsp]
      · simp [parseArgs, List.filter, hr, hsp]
    · by_cases hsp : s = "--purge"
      · simp [parseArgs, List.filter, hr, hsp]
      · simp [parseArgs, List.filter, hr, hsp, hs]

/-- C7 witness: the empty command line aborts with the usage error and no
events; valid arguments with `QUAY_TOKEN` unset abort with the `KeyError`
and no events — in both cases no network request is issued. -/
theorem c7_config_errors_witness :
    runMain worldNoArgs fixedNow = ([], Except.error Abort.usageError)
    ∧ runMain worldNoToken fixedNow =
        ([], Except.error (Abort.keyError "QUAY_TOKEN")) :=
  ⟨(c7_config_errors worldNoArgs fixedNow).1 rfl,
   (c7_config_errors worldNoToken fixedNow).2.1 cfgFive rfl rfl⟩

/-- C8: when the purge flag is unset the list-filter-report step issues no
DELETE request, and the run's entire observable outcome is independent of
the delete responses — so repeating it over identical input data at the
same fixed reference time produces identical output. -/
theorem c8_dry_run_pure (w : World) (now : DateTime) (cfg : Config)
    (h1 : parseArgs w.argv = Except.ok cfg) (h2 : cfg.purge = false) :
    (∀ url, Event.httpDelete url ∉ (runMain w now).1)
    ∧ ∀ f : String → Bool,
        runMain { w with deleteOk := f } now = runMain w now := by
  obtain ⟨argv, tokenv, listResp, delOk⟩ := w
  constructor
  · intro url
    cases htok : tokenv with
    | none => simp [runMain, h1, htok]
    | some tok =>
      cases hresp : listResp with
      | error e => simp [runMain, h1, htok, hresp]
      | ok dicts =>
        cases hce : computeExpired cfg now (dicts.map deserializeTag) with
        | error e => simp [runMain, h1, htok, hresp, hce]
        | ok expired =>
          simp only [runMain, h1, htok, hresp, hce, List.mem_cons]
          intro hmem
          rcases hmem with hh | hh
          · exact Event.noConfusion hh
          · exact (reportLoop_purge_false cfg now h2 expired delOk delOk).2
              url hh
  · intro f
    cases htok : tokenv with
    | none => simp [runMain, h1, htok]
    | some tok =>
      cases hresp : listResp with
      | error e => simp [runMain, h1, htok, hresp]
      | ok dicts =>
        cases hce : computeExpired cfg now (dicts.map deserializeTag) with
        | error e => simp [runMain, h1, htok, hresp, hce]
        | ok expired =>
          simp only [runMain, h1, htok, hresp, hce]
          rw [(reportLoop_purge_false cfg now h2 expired f delOk).1]

/-- C8 witness: the dry-run world at the fixed instant issues no delete and
its outcome is the same for every assignment of delete responses. -/
theorem c8_dry_run_pure_witness :
    (∀ url, Event.httpDelete url ∉ (runMain worldDry fixedNow).1)
    ∧ ∀ f : String → Bool,
        runMain { worldDry with deleteOk := f } fixedNow =
          runMain worldDry fixedNow :=
  c8_dry_run_pure worldDry fixedNow cfgFive rfl rfl

end Purge
